import Mathlib

/-!
# Verification of the myqueue scheduling core

A shallow embedding of the myqueue job-queue daemon (C++ sources under
`src/core/`), together with theorems settling the specification claims about
the resource ledger, the CPU / GPU probes, the task store, the executor
environment and the scheduler paths.

Conventions of the embedding:
* C++ `std::set<int>` becomes `Finset Int`; `std::vector<int>` becomes `List Int`.
* `double` utilization values become `ℚ` (only compared, never computed with).
* The nvidia-smi snapshot is an oracle `Option (List GPUInfo)`: `none` models
  "the tool is absent / exits non-zero / empty output", `some l` models a
  parsed CSV snapshot.
* Per-core utilization sampling is an oracle `Int → Nat → ℚ` (core id and a
  global sample clock); every sample taken advances the clock, so the number
  of sustained-idle samples a call consumes is observable as the clock delta.
* `std::shuffle` becomes an explicit `shuffle : List Int → List Int` parameter.
-/

namespace MyQueue

/-! ## GPU monitor (`gpu_monitor.cpp`) -/

/-- One parsed row of nvidia-smi output (`GPUInfo` in `gpu_monitor.h`). -/
structure GPUInfo where
  device_id : Int
  memory_used_mb : Nat
  memory_total_mb : Nat
  is_busy : Bool := false
  is_allocated : Bool := false
deriving DecidableEq, Repr

/-- The persistent state of `GPUMonitor`: threshold, device count and the
reserved set `allocated_gpus_`. -/
structure GPUMonitorState where
  memory_threshold_mb : Nat
  total_gpus : Nat
  allocated_gpus : Finset Int
deriving DecidableEq

/-- `GPUMonitor::queryGPUs` (real path): on tool failure (`none`) every
configured device is fabricated as busy with `memory_used = threshold + 1`;
on success the parsed rows get `is_busy`/`is_allocated` recomputed. -/
def queryGPUs (st : GPUMonitorState) (snap : Option (List GPUInfo)) : List GPUInfo :=
  match snap with
  | none =>
      (List.range st.total_gpus).map (fun (i : Nat) =>
        { device_id := (i : Int), memory_used_mb := st.memory_threshold_mb + 1,
          memory_total_mb := 0, is_busy := true,
          is_allocated := decide ((i : Int) ∈ st.allocated_gpus) })
  | some l =>
      l.map (fun g =>
        { g with is_busy := decide (g.memory_used_mb > st.memory_threshold_mb),
                 is_allocated := decide (g.device_id ∈ st.allocated_gpus) })

/-- `GPUMonitor::isGPUBusy`: allocated devices are busy; otherwise the parsed
snapshot is searched and a missing device is busy (safe default). -/
def isGPUBusy (st : GPUMonitorState) (snap : Option (List GPUInfo))
    (device_id : Int) : Bool :=
  if device_id ∈ st.allocated_gpus then true
  else
    match (snap.getD []).find? (fun g => g.device_id == device_id) with
    | some g => decide (g.memory_used_mb > st.memory_threshold_mb)
    | none => true

/-- The per-index availability test inside `GPUMonitor::getAvailableGPUs`:
a device found in the query results must be neither busy nor allocated; a
device NOT found in the results is checked against the allocation set only. -/
def gpuIndexAvailable (st : GPUMonitorState) (snap : Option (List GPUInfo))
    (i : Nat) : Bool :=
  match (queryGPUs st snap).find? (fun g => g.device_id == (i : Int)) with
  | some g => !g.is_busy && !g.is_allocated
  | none => decide ((i : Int) ∉ st.allocated_gpus)

/-- `GPUMonitor::getAvailableGPUs`: scan devices `0, 1, …, total_gpus-1` in
ascending order and keep the available ones. -/
def getAvailableGPUs (st : GPUMonitorState) (snap : Option (List GPUInfo)) :
    List Int :=
  ((List.range st.total_gpus).filter (gpuIndexAvailable st snap)).map
    (fun (i : Nat) => (i : Int))

/-- `GPUMonitor::allocateGPUs`: insert each id into the reserved set. -/
def gpuAllocate (st : GPUMonitorState) (ids : List Int) : GPUMonitorState :=
  { st with allocated_gpus := st.allocated_gpus ∪ ids.toFinset }

/-- `GPUMonitor::releaseGPUs`: erase each id from the reserved set. -/
def gpuRelease (st : GPUMonitorState) (ids : List Int) : GPUMonitorState :=
  { st with allocated_gpus := st.allocated_gpus \ ids.toFinset }

/-! ## CPU monitor (`cpu_monitor.cpp`) -/

/-- The persistent state of `CPUMonitor`: utilization threshold (percent),
core count, the sustained-idle window and interval, and the reserved set
`allocated_cpus_`. -/
structure CPUMonitorState where
  util_threshold : ℚ
  total_cpus : Int
  check_duration_ms : Nat
  check_interval_ms : Nat
  allocated_cpus : Finset Int
deriving DecidableEq

/-- `CPUMonitor::getAffinityGroup`: GPUs 0-3 map to group 1, the rest to 2. -/
def getAffinityGroup (gpu_id : Int) : Int :=
  if gpu_id < 4 then 1 else 2

/-- `CPUMonitor::getCPURangeForGroup`: group 1 ↦ [0,32), group 2 ↦ [32,64),
anything else ↦ [0,64). -/
def getCPURangeForGroup (affinity_group : Int) : Int × Int :=
  if affinity_group = 1 then (0, 32)
  else if affinity_group = 2 then (32, 64)
  else (0, 64)

/-- The integers `a, a+1, …, b-1` (ascending). -/
def intRange (a b : Int) : List Int :=
  (List.range (b - a).toNat).map (fun (k : Nat) => a + (k : Int))

/-- `CPUMonitor::getAvailableCPUs`: the unallocated cores of the affinity
group's range, clipped to `total_cpus`, in ascending order. -/
def getAvailableCPUs (st : CPUMonitorState) (affinity_group : Int) : List Int :=
  let r := getCPURangeForGroup affinity_group
  (intRange r.1 (min r.2 st.total_cpus)).filter
    (fun i => decide (i ∉ st.allocated_cpus))

/-- `CPUMonitor::allocateCPUs`: insert each id into the reserved set. -/
def cpuAllocate (st : CPUMonitorState) (ids : List Int) : CPUMonitorState :=
  { st with allocated_cpus := st.allocated_cpus ∪ ids.toFinset }

/-- `CPUMonitor::releaseCPUs`: erase each id from the reserved set. -/
def cpuRelease (st : CPUMonitorState) (ids : List Int) : CPUMonitorState :=
  { st with allocated_cpus := st.allocated_cpus \ ids.toFinset }

/-- The sample count of `CPUMonitor::checkCPUAvailable`:
`check_duration_ms / check_interval_ms` (C++ integer division), clamped
below by 1. -/
def checkCount (st : CPUMonitorState) : Nat :=
  max 1 (st.check_duration_ms / st.check_interval_ms)

/-- The sampling loop of `CPUMonitor::checkCPUAvailable`: take up to `k`
utilization samples (advancing the global sample clock once per sample) and
fail on the first sample that is negative (error sentinel) or at least the
threshold. Returns the verdict and the clock after the call. -/
def sampleLoop (util : Int → Nat → ℚ) (thr : ℚ) (core : Int) :
    Nat → Nat → Bool × Nat
  | 0, clock => (true, clock)
  | k + 1, clock =>
      let u := util core clock
      if u < 0 ∨ thr ≤ u then (false, clock + 1)
      else sampleLoop util thr core k (clock + 1)

/-- `CPUMonitor::checkCPUAvailable`: an already-reserved core fails at once
(consuming no sample); otherwise run the sustained-idle sampling loop. -/
def checkCPUAvailable (st : CPUMonitorState) (util : Int → Nat → ℚ)
    (clock : Nat) (core : Int) : Bool × Nat :=
  if core ∈ st.allocated_cpus then (false, clock)
  else sampleLoop util st.util_threshold core (checkCount st) clock

/-! ## Resource monitor (`resource_monitor.cpp`) -/

/-- `AllocationResult` of `resource_monitor.h`. -/
structure AllocationResult where
  cpus : List Int := []
  gpus : List Int := []
deriving DecidableEq, Repr

/-- `ResourceMonitor::determineAffinityGroup`: empty GPU set ↦ 0 (any);
a set within one group ↦ that group; a set spanning both ↦ 0. -/
def determineAffinityGroup (gpus : List Int) : Int :=
  if gpus = [] then 0
  else
    let has1 := gpus.any (fun g => decide (getAffinityGroup g = 1))
    let has2 := gpus.any (fun g => decide (getAffinityGroup g ≠ 1))
    if has1 ∧ has2 then 0
    else if has1 then 1 else 2

/-- `ResourceMonitor::allocateGPUs`: the specific path rejects excluded or
busy devices wholesale; the auto path takes the first `ngpu` non-excluded
available devices (ascending). Reservation is marked only on success. -/
def rmAllocateGPUs (excluded : Finset Int) (st : GPUMonitorState)
    (snap : Option (List GPUInfo)) (ngpu : Int) (specific : List Int) :
    List Int × GPUMonitorState :=
  if specific ≠ [] then
    if specific.any (fun g => decide (g ∈ excluded)) then ([], st)
    else if specific.any (fun g => isGPUBusy st snap g) then ([], st)
    else (specific, gpuAllocate st specific)
  else
    let allocated :=
      ((getAvailableGPUs st snap).filter (fun g => decide (g ∉ excluded))).take
        ngpu.toNat
    if (allocated.length : Int) < ngpu then ([], st)
    else (allocated, gpuAllocate st allocated)

/-- The specific-CPU verification loop of `ResourceMonitor::allocateCPUs`:
run `checkCPUAvailable` on each requested core in turn (threading the sample
clock), stopping at the first failure. -/
def checkSpecificCPUs (st : CPUMonitorState) (util : Int → Nat → ℚ) :
    List Int → Nat → Bool × Nat
  | [], clock => (true, clock)
  | c :: rest, clock =>
      let r := checkCPUAvailable st util clock c
      if r.1 then checkSpecificCPUs st util rest r.2 else (false, r.2)

/-- The auto-allocation loop of `ResourceMonitor::allocateCPUs`: walk the
shuffled candidates, stop once `ncpu` cores were gathered, and reserve each
passing core immediately (so later checks see it allocated). -/
def autoCPULoop (util : Int → Nat → ℚ) (ncpu : Int) :
    List Int → CPUMonitorState → Nat → List Int →
    List Int × CPUMonitorState × Nat
  | [], cst, clock, acc => (acc, cst, clock)
  | c :: rest, cst, clock, acc =>
      if (acc.length : Int) ≥ ncpu then (acc, cst, clock)
      else
        let r := checkCPUAvailable cst util clock c
        if r.1 then
          autoCPULoop util ncpu rest (cpuAllocate cst [c]) r.2 (acc ++ [c])
        else
          autoCPULoop util ncpu rest cst r.2 acc

/-- `ResourceMonitor::allocateCPUs`: the specific path rejects excluded cores,
then sustained-idle-checks each requested core, reserving all of them only if
every check passes; the auto path filters excluded cores out of the affinity
group's candidates, requires enough candidates, shuffles, gathers passing
cores (reserving each at once) and rolls the partial reservation back if
fewer than `ncpu` passed. -/
def rmAllocateCPUs (excluded : Finset Int) (st : CPUMonitorState)
    (util : Int → Nat → ℚ) (shuffle : List Int → List Int) (clock : Nat)
    (ncpu : Int) (affinity_group : Int) (specific : List Int) :
    List Int × CPUMonitorState × Nat :=
  if specific ≠ [] then
    if specific.any (fun c => decide (c ∈ excluded)) then ([], st, clock)
    else
      let r := checkSpecificCPUs st util specific clock
      if r.1 then (specific, cpuAllocate st specific, r.2)
      else ([], st, r.2)
  else
    let candidates :=
      (getAvailableCPUs st affinity_group).filter (fun c => decide (c ∉ excluded))
    if (candidates.length : Int) < ncpu then ([], st, clock)
    else
      let r := autoCPULoop util ncpu (shuffle candidates) st clock []
      if (r.1.length : Int) < ncpu then ([], cpuRelease r.2.1 r.1, r.2.2)
      else r

/-- The whole resource ledger: both monitors, the administrator exclusion
sets, and the global sample clock. -/
structure RMState where
  cpu : CPUMonitorState
  gpu : GPUMonitorState
  excluded_cpus : Finset Int
  excluded_gpus : Finset Int
  clock : Nat
deriving DecidableEq

/-- The CPU phase of `ResourceMonitor::allocate` (steps 2-3): determine the
affinity group from the carried GPUs, allocate CPUs, and on CPU failure roll
back the GPU reservation before returning `none`. -/
def allocateCPUPhase (s : RMState) (util : Int → Nat → ℚ)
    (shuffle : List Int → List Int) (ncpu : Int) (specific_cpus : List Int)
    (gpus : List Int) : Option AllocationResult × RMState :=
  let ag := determineAffinityGroup gpus
  if ncpu > 0 ∨ specific_cpus ≠ [] then
    let r := rmAllocateCPUs s.excluded_cpus s.cpu util shuffle s.clock ncpu ag
      specific_cpus
    let s2 : RMState := { s with cpu := r.2.1, clock := r.2.2 }
    if specific_cpus ≠ [] ∧ r.1.length ≠ specific_cpus.length then
      (none, if gpus ≠ [] then { s2 with gpu := gpuRelease s2.gpu gpus } else s2)
    else if specific_cpus = [] ∧ (r.1.length : Int) < ncpu then
      (none, if gpus ≠ [] then { s2 with gpu := gpuRelease s2.gpu gpus } else s2)
    else (some { cpus := r.1, gpus := gpus }, s2)
  else (some { cpus := [], gpus := gpus }, s)

/-- `ResourceMonitor::allocate`: GPU phase first (skipped when nothing GPU
was requested), then the CPU phase with rollback. -/
def allocate (s : RMState) (snap : Option (List GPUInfo))
    (util : Int → Nat → ℚ) (shuffle : List Int → List Int)
    (ncpu ngpu : Int) (specific_cpus specific_gpus : List Int) :
    Option AllocationResult × RMState :=
  if ngpu > 0 ∨ specific_gpus ≠ [] then
    let r := rmAllocateGPUs s.excluded_gpus s.gpu snap ngpu specific_gpus
    let s1 : RMState := { s with gpu := r.2 }
    if specific_gpus ≠ [] ∧ r.1.length ≠ specific_gpus.length then (none, s1)
    else if specific_gpus = [] ∧ (r.1.length : Int) < ngpu then (none, s1)
    else allocateCPUPhase s1 util shuffle ncpu specific_cpus r.1
  else allocateCPUPhase s util shuffle ncpu specific_cpus []

/-- `ResourceMonitor::release`: release the CPUs and GPUs (each skipped when
the corresponding list is empty). -/
def rmRelease (s : RMState) (cpus gpus : List Int) : RMState :=
  let s1 := if cpus ≠ [] then { s with cpu := cpuRelease s.cpu cpus } else s
  if gpus ≠ [] then { s1 with gpu := gpuRelease s1.gpu gpus } else s1

/-! ## Task store (`task.h`, `task_queue.cpp`) -/

/-- `TaskStatus` of `task.h`. -/
inductive TaskStatus
  | pending
  | running
  | completed
  | failed
  | cancelled
deriving DecidableEq, Repr

/-- The attributes of `Task` the claims touch (timestamps are abstract
tick counts). -/
structure Task where
  id : Nat
  ncpu : Int := 0
  ngpu : Int := 0
  specific_cpus : List Int := []
  specific_gpus : List Int := []
  status : TaskStatus := .pending
  pid : Int := 0
  allocated_cpus : List Int := []
  allocated_gpus : List Int := []
  exit_code : Int := 0
  end_time : Option Nat := none
deriving DecidableEq, Repr

/-- `TaskQueue::tasks_` (`std::map<uint64_t, Task>`), embedded as an
association list keyed by id. -/
abbrev TaskMap := List (Nat × Task)

/-- `tasks_.find(id)`. -/
def qLookup (q : TaskMap) (id : Nat) : Option Task :=
  (q.find? (fun p => p.1 == id)).map (fun p => p.2)

/-- Update the entry with key `id` in place. -/
def qUpdate (q : TaskMap) (id : Nat) (f : Task → Task) : TaskMap :=
  q.map (fun p => if p.1 == id then (p.1, f p.2) else p)

/-- `TaskQueue::getRunningTasks`: the tasks currently in `RUNNING`. -/
def getRunningTasksQ (q : TaskMap) : List Task :=
  (q.filter (fun p => decide (p.2.status = .running))).map (fun p => p.2)

/-- `TaskQueue::setTaskCompleted`: only from `RUNNING`; records the exit code
and the end time. -/
def setTaskCompleted (q : TaskMap) (id : Nat) (exit_code : Int) (now : Nat) :
    Bool × TaskMap :=
  match qLookup q id with
  | none => (false, q)
  | some t =>
      if t.status ≠ .running then (false, q)
      else
        (true, qUpdate q id (fun t =>
          { t with status := .completed, exit_code := exit_code,
                   end_time := some now }))

/-- `TaskQueue::setTaskFailed`: from `PENDING` or `RUNNING`; records the end
time. -/
def setTaskFailed (q : TaskMap) (id : Nat) (now : Nat) : Bool × TaskMap :=
  match qLookup q id with
  | none => (false, q)
  | some t =>
      if t.status ≠ .pending ∧ t.status ≠ .running then (false, q)
      else
        (true, qUpdate q id (fun t =>
          { t with status := .failed, end_time := some now }))

/-- `TaskQueue::deleteTask`: mark non-terminal tasks `CANCELLED` (visible to
observers during the transition) and erase the record. -/
def deleteTask (q : TaskMap) (id : Nat) : Bool × TaskMap :=
  match qLookup q id with
  | none => (false, q)
  | some _ => (true, q.eraseP (fun p => p.1 == id))

/-! ## Scheduler supervise / terminate paths (`scheduler.cpp`) -/

/-- `Scheduler::handleTaskCompletion`: release the task's resources, then
mark it `COMPLETED` with the observed exit code — deliberately regardless of
whether the exit code is zero. -/
def handleTaskCompletion (q : TaskMap) (rm : RMState) (task_id : Nat)
    (exit_code : Int) (now : Nat) : TaskMap × RMState :=
  match qLookup q task_id with
  | none => (q, rm)
  | some t =>
      let rm' := rmRelease rm t.allocated_cpus t.allocated_gpus
      let r := setTaskCompleted q task_id exit_code now
      (r.2, rm')

/-- POSIX signal numbers used by the executor. -/
def SIGTERM : Int := 15

/-- POSIX signal number of the forceful kill. -/
def SIGKILL : Int := 9

/-- The process environment the executor interacts with: whether
`kill(-pid, sig)` and `kill(pid, sig)` succeed, and the exit code (if any)
`waitFor(pid, timeout_ms)` observes within its timeout. -/
structure ExecWorld where
  groupKillOk : Int → Int → Bool
  singleKillOk : Int → Int → Bool
  waitResult : Int → Nat → Option Int

/-- `Executor::terminate`: send `SIGKILL` when `force`, else `SIGTERM`, to the
process group `-pid`, falling back to the single process when the group kill
fails. Returns success and the list of `(target, signal)` send attempts. -/
def executorTerminate (w : ExecWorld) (pid : Int) (force : Bool) :
    Bool × List (Int × Int) :=
  let sig := if force then SIGKILL else SIGTERM
  if w.groupKillOk pid sig then (true, [(-pid, sig)])
  else (w.singleKillOk pid sig, [(-pid, sig), (pid, sig)])

/-- `Scheduler::terminateTask`: tasks that are not `RUNNING` (or have no live
pid) return `false`. A running task is first sent `SIGTERM` — the `force`
argument is ignored by the implementation — then awaited for up to 2000 ms,
then on survival sent `SIGKILL` and awaited 1000 ms; finally its resources
are released and the task is deleted. Returns the verdict, the new store and
ledger, and the signal-send trace. -/
def terminateTask (q : TaskMap) (rm : RMState) (w : ExecWorld) (task_id : Nat)
    (_force : Bool) : Bool × TaskMap × RMState × List (Int × Int) :=
  match qLookup q task_id with
  | none => (false, q, rm, [])
  | some t =>
      if t.status ≠ .running ∨ t.pid ≤ 0 then (false, q, rm, [])
      else
        let r1 := executorTerminate w t.pid false
        if r1.1 then
          let ev2 :=
            match w.waitResult t.pid 2000 with
            | some _ => ([] : List (Int × Int))
            | none =>
                let r2 := executorTerminate w t.pid true
                r2.2
          let rm' := rmRelease rm t.allocated_cpus t.allocated_gpus
          let q' := (deleteTask q task_id).2
          (true, q', rm', r1.2 ++ ev2)
        else (false, q, rm, r1.2)

/-! ## Server startup recovery (`server.cpp`, `Server::start`) -/

/-- The recovery step of `Server::start`: for every task loaded in `RUNNING`,
probe its recorded pid; a dead process sends the task to `FAILED`, a live one
is merely logged. The resource ledger `rm` is returned untouched — the code
performs no re-marking of the live tasks' allocations. -/
def serverStartRecovery (q : TaskMap) (rm : RMState) (alive : Int → Bool)
    (now : Nat) : TaskMap × RMState :=
  let running := getRunningTasksQ q
  (running.foldl
    (fun acc t => if alive t.pid then acc else (setTaskFailed acc t.id now).2) q,
   rm)

/-! ## Executor environment strings (`executor.cpp`)

C++ `std::string` is embedded as `List Char`. -/

/-- The character of a decimal digit value (`'0'` on out-of-range input,
which never occurs). -/
def digitChar (d : Nat) : Char :=
  match d with
  | 0 => '0' | 1 => '1' | 2 => '2' | 3 => '3' | 4 => '4'
  | 5 => '5' | 6 => '6' | 7 => '7' | 8 => '8' | 9 => '9'
  | _ => '0'

/-- Decimal rendering of a natural number, most significant digit first
(fuel-indexed helper; the fuel strictly dominates the argument). -/
def natDigitsAux : Nat → Nat → List Char
  | 0, _ => []
  | fuel + 1, n =>
      if n < 10 then [digitChar n]
      else natDigitsAux fuel (n / 10) ++ [digitChar (n % 10)]

/-- Decimal rendering of a natural number (`std::to_string` on `uint64_t`
values). -/
def natDigits (n : Nat) : List Char := natDigitsAux (n + 1) n

/-- `std::to_string(int)`. -/
def intToChars (n : Int) : List Char :=
  if n < 0 then '-' :: natDigits n.natAbs else natDigits n.toNat

/-- `Executor::buildCpuString` / `buildGpuString`: join the ids with commas,
in the order of the vector. -/
def buildIdString (ids : List Int) : List Char :=
  match ids with
  | [] => []
  | x :: xs => xs.foldl (fun acc y => acc ++ ',' :: intToChars y) (intToChars x)

/-- `Executor::setupEnvironment`: the three variables set in the child, with
the GPU string used for both GPU variables and the CPU string for
`MYQUEUE_CPUS`. -/
def setupEnvironment (cpus gpus : List Int) : List (String × List Char) :=
  [("CUDA_VISIBLE_DEVICES", buildIdString gpus),
   ("MYQUEUE_GPUS", buildIdString gpus),
   ("MYQUEUE_CPUS", buildIdString cpus)]

/-! ## Id-range parsing (`TaskQueue::parseIdRange`) -/

/-- The whitespace class of C's `isspace` in the default locale, as skipped
by `strtoull`. -/
def isSpaceC (c : Char) : Bool :=
  c == ' ' || c == '\t' || c == '\n' || c == '\x0b' || c == '\x0c' || c == '\r'

/-- Value of a big-endian decimal digit string. -/
def digitsVal (ds : List Char) : Nat :=
  ds.foldl (fun acc c => 10 * acc + (c.toNat - 48)) 0

/-- `ULLONG_MAX`. -/
def uMax : Nat := 2 ^ 64 - 1

/-- `std::stoull` (base 10): skip whitespace, accept one optional sign, take
the longest digit prefix; no digits or a magnitude beyond `ULLONG_MAX` throws
(`none`); a `'-'` sign wraps the magnitude modulo 2^64 as `strtoull` does. -/
def stoull (l : List Char) : Option Nat :=
  let l1 := l.dropWhile isSpaceC
  let p : Bool × List Char :=
    match l1 with
    | [] => (false, [])
    | c :: r =>
        if c = '-' then (true, r)
        else if c = '+' then (false, r)
        else (false, c :: r)
  let ds := p.2.takeWhile Char.isDigit
  if ds = [] then none
  else
    let v := digitsVal ds
    if v ≤ uMax then some (if p.1 then (2 ^ 64 - v) % 2 ^ 64 else v)
    else none

/-- Index of the first `'-'` (`std::string::find('-')`). -/
def findDash : List Char → Option Nat
  | [] => none
  | c :: rest =>
      if c == '-' then some 0 else (findDash rest).map (fun i => i + 1)

/-- The inclusive range `[a, a+1, …, b]` pushed by the range loop. -/
def rangeIncl (a b : Nat) : List Nat :=
  (List.range (b + 1 - a)).map (fun (k : Nat) => a + k)

/-- The single-id branch of `parseIdRange`. -/
def parseSingleId (s : List Char) : List Nat :=
  match stoull s with
  | some n => [n]
  | none => []

/-- `TaskQueue::parseIdRange`: an interior `'-'` splits the input into two
`stoull` parses yielding `[a, …, b]` when `a ≤ b` and `[]` otherwise (or on a
parse failure); without an interior dash the whole input is one `stoull`
parse. -/
def parseIdRange (s : List Char) : List Nat :=
  match findDash s with
  | some p =>
      if 0 < p ∧ p < s.length - 1 then
        match stoull (s.take p), stoull (s.drop (p + 1)) with
        | some a, some b => if a ≤ b then rangeIncl a b else []
        | _, _ => []
      else parseSingleId s
  | none => parseSingleId s

/-! ## Lemmas about the environment strings -/

theorem natDigitsAux_ne_nil (fuel n : Nat) (h : 0 < fuel) :
    natDigitsAux fuel n ≠ [] := by
  cases fuel with
  | zero => omega
  | succ fuel =>
      unfold natDigitsAux
      by_cases hn : n < 10
      · simp [hn]
      · simp [hn]

theorem natDigits_ne_nil (n : Nat) : natDigits n ≠ [] :=
  natDigitsAux_ne_nil (n + 1) n (Nat.succ_pos n)

theorem intToChars_ne_nil (n : Int) : intToChars n ≠ [] := by
  unfold intToChars
  by_cases hn : n < 0
  · simp [hn]
  · simp only [hn, if_false, reduceIte]
    exact natDigits_ne_nil n.toNat

theorem foldl_append_length_le (xs : List Int) :
    ∀ acc : List Char,
      acc.length ≤
        (xs.foldl (fun acc y => acc ++ ',' :: intToChars y) acc).length := by
  induction xs with
  | nil => intro acc; simp
  | cons x rest ih =>
      intro acc
      calc acc.length ≤ (acc ++ ',' :: intToChars x).length := by
            simp
        _ ≤ _ := ih (acc ++ ',' :: intToChars x)

theorem buildIdString_eq_nil_iff (l : List Int) :
    buildIdString l = [] ↔ l = [] := by
  constructor
  · intro h
    cases l with
    | nil => rfl
    | cons x xs =>
        exfalso
        have h1 : 0 < (intToChars x).length :=
          List.length_pos.mpr (intToChars_ne_nil x)
        have h2 := foldl_append_length_le xs (intToChars x)
        simp only [buildIdString] at h
        rw [h] at h2
        simp only [List.length_nil, Nat.le_zero] at h2
        omega
  · intro h
    subst h
    rfl

/-! ## Lemmas about the sustained-idle sampling loop -/

theorem sampleLoop_true_iff (util : Int → Nat → ℚ) (thr : ℚ) (core : Int) :
    ∀ (k clock : Nat),
      (sampleLoop util thr core k clock).1 = true ↔
        ∀ i < k, 0 ≤ util core (clock + i) ∧ util core (clock + i) < thr := by
  intro k
  induction k with
  | zero => intro clock; simp [sampleLoop]
  | succ k ih =>
      intro clock
      by_cases h : util core clock < 0 ∨ thr ≤ util core clock
      · simp only [sampleLoop, if_pos h]
        constructor
        · intro hfalse; cases hfalse
        · intro hall
          rcases hall 0 (Nat.succ_pos k) with ⟨h1, h2⟩
          rcases h with h | h
          · exact absurd h1 (by simpa using h)
          · exact absurd h2 (not_lt.mpr (by simpa using h))
      · simp only [sampleLoop, if_neg h]
        rw [ih (clock + 1)]
        push_neg at h
        constructor
        · intro hall i hi
          cases i with
          | zero => simpa using h
          | succ j =>
              have := hall j (Nat.lt_of_succ_lt_succ hi)
              simpa [Nat.add_comm, Nat.add_assoc, Nat.add_left_comm] using this
        · intro hall i hi
          have := hall (i + 1) (Nat.succ_lt_succ hi)
          simpa [Nat.add_comm, Nat.add_assoc, Nat.add_left_comm] using this

theorem sampleLoop_clock_of_true (util : Int → Nat → ℚ) (thr : ℚ) (core : Int) :
    ∀ (k clock : Nat), (sampleLoop util thr core k clock).1 = true →
      (sampleLoop util thr core k clock).2 = clock + k := by
  intro k
  induction k with
  | zero => intro clock _; simp [sampleLoop]
  | succ k ih =>
      intro clock h
      by_cases hc : util core clock < 0 ∨ thr ≤ util core clock
      · simp [sampleLoop, if_pos hc] at h
      · simp only [sampleLoop, if_neg hc] at h ⊢
        rw [ih (clock + 1) h]
        omega

theorem sampleLoop_false_spec (util : Int → Nat → ℚ) (thr : ℚ) (core : Int) :
    ∀ (k clock : Nat), (sampleLoop util thr core k clock).1 = false →
      ∃ j < k, (util core (clock + j) < 0 ∨ thr ≤ util core (clock + j)) ∧
        (sampleLoop util thr core k clock).2 = clock + j + 1 ∧
        ∀ i < j, 0 ≤ util core (clock + i) ∧ util core (clock + i) < thr := by
  intro k
  induction k with
  | zero => intro clock h; simp [sampleLoop] at h
  | succ k ih =>
      intro clock h
      by_cases hc : util core clock < 0 ∨ thr ≤ util core clock
      · refine ⟨0, Nat.succ_pos k, by simpa using hc, ?_, by omega⟩
        simp [sampleLoop, if_pos hc]
      · simp only [sampleLoop, if_neg hc] at h ⊢
        rcases ih (clock + 1) h with ⟨j, hj, hbad, hclk, hgood⟩
        refine ⟨j + 1, Nat.succ_lt_succ hj, ?_, ?_, ?_⟩
        · simpa [Nat.add_comm, Nat.add_assoc, Nat.add_left_comm] using hbad
        · rw [hclk]; omega
        · intro i hi
          cases i with
          | zero => push_neg at hc; simpa using hc
          | succ m =>
              have := hgood m (Nat.lt_of_succ_lt_succ hi)
              simpa [Nat.add_comm, Nat.add_assoc, Nat.add_left_comm] using this

/-! ## C4: the sustained-idle check -/

/-- C4, counterexample: with `window = 1100` ms and `interval = 500` ms and an
always-idle core, `checkCPUAvailable` succeeds after consuming exactly
`2 = ⌊1100 / 500⌋` samples, whereas the claim demands
`⌈1100 / 500⌉ = 3` samples. -/
theorem checkCPUAvailable_floor_count_cex :
    checkCPUAvailable ⟨50, 64, 1100, 500, ∅⟩ (fun _ _ => 0) 0 0 = (true, 2) ∧
      (1100 + 500 - 1) / 500 = 3 := by
  constructor
  · rfl
  · rfl

/-- C4 (amended): for every window and (positive) interval, a call on an
unreserved core takes `max 1 ⌊window / interval⌋` samples — equal to
`⌈window / interval⌉` only when the interval divides the window or exceeds
it — and returns `true` iff every one of those samples is nonnegative and
strictly below the threshold; it short-circuits (consuming `j + 1` samples)
on the first sample that is negative (error sentinel) or reaches the
threshold, so in particular a sample exactly at the threshold makes it
return `false` immediately. -/
theorem checkCPUAvailable_spec (st : CPUMonitorState) (util : Int → Nat → ℚ)
    (clock : Nat) (core : Int) (_hint : 0 < st.check_interval_ms)
    (hcore : core ∉ st.allocated_cpus) :
    ((checkCPUAvailable st util clock core).1 = true ↔
      ∀ i < checkCount st,
        0 ≤ util core (clock + i) ∧ util core (clock + i) < st.util_threshold) ∧
    ((checkCPUAvailable st util clock core).1 = true →
      (checkCPUAvailable st util clock core).2 = clock + checkCount st) ∧
    ((checkCPUAvailable st util clock core).1 = false →
      ∃ j < checkCount st,
        (util core (clock + j) < 0 ∨ st.util_threshold ≤ util core (clock + j)) ∧
        (checkCPUAvailable st util clock core).2 = clock + j + 1 ∧
        ∀ i < j,
          0 ≤ util core (clock + i) ∧ util core (clock + i) < st.util_threshold) ∧
    checkCount st = max 1 (st.check_duration_ms / st.check_interval_ms) := by
  have hdef : checkCPUAvailable st util clock core =
      sampleLoop util st.util_threshold core (checkCount st) clock := by
    simp [checkCPUAvailable, hcore]
  refine ⟨?_, ?_, ?_, rfl⟩
  · rw [hdef]; exact sampleLoop_true_iff util st.util_threshold core _ clock
  · rw [hdef]; exact sampleLoop_clock_of_true util st.util_threshold core _ clock
  · rw [hdef]; exact sampleLoop_false_spec util st.util_threshold core _ clock

/-- C4, witness: an always-10%-utilized unreserved core with a 50% threshold,
a 1000 ms window and a 500 ms interval is reported available. -/
theorem checkCPUAvailable_spec_witness :
    (checkCPUAvailable ⟨50, 64, 1000, 500, ∅⟩ (fun _ _ => 10) 0 0).1 = true :=
  ((checkCPUAvailable_spec ⟨50, 64, 1000, 500, ∅⟩ (fun _ _ => 10) 0 0
      (by decide) (by simp)).1).mpr (by intro i _; norm_num)

/-! ## C5: probe failure and missing devices -/

/-- C5, counterexample: with two configured devices and a non-empty snapshot
listing only device 0, device 1 — absent from the snapshot — is reported
available by `getAvailableGPUs`, while the claim demands it be treated as
over-threshold and never reported available. -/
theorem getAvailableGPUs_missing_device_cex :
    (1 : Int) ∈ getAvailableGPUs ⟨100, 2, ∅⟩
        (some [⟨0, 0, 16384, false, false⟩]) ∧
      ([(⟨0, 0, 16384, false, false⟩ : GPUInfo)] ≠ []) ∧
      ∀ g ∈ [(⟨0, 0, 16384, false, false⟩ : GPUInfo)], g.device_id ≠ 1 := by
  refine ⟨?_, by simp, by decide⟩
  decide

/-- C5 (amended): when the GPU query tool is absent or fails, `queryGPUs`
reports every one of the configured devices as busy / over threshold, and
`isGPUBusy` treats a device absent from the snapshot (empty or not) as busy;
`getAvailableGPUs`, however, treats a configured device absent from the
snapshot as available exactly when it is not currently reserved. -/
theorem gpuProbe_failure_and_missing_spec :
    (∀ st : GPUMonitorState,
        (queryGPUs st none).length = st.total_gpus ∧
        ∀ g ∈ queryGPUs st none,
          g.is_busy = true ∧ st.memory_threshold_mb < g.memory_used_mb) ∧
    (∀ (st : GPUMonitorState) (snap : Option (List GPUInfo)) (d : Int),
        (∀ g ∈ snap.getD [], g.device_id ≠ d) → isGPUBusy st snap d = true) ∧
    (∀ (st : GPUMonitorState) (snap : Option (List GPUInfo)) (i : Nat),
        i < st.total_gpus →
        (∀ g ∈ queryGPUs st snap, g.device_id ≠ (i : Int)) →
        ((i : Int) ∈ getAvailableGPUs st snap ↔ (i : Int) ∉ st.allocated_gpus)) := by
  refine ⟨?_, ?_, ?_⟩
  · intro st
    constructor
    · simp [queryGPUs]
    · intro g hg
      simp only [queryGPUs, List.mem_map] at hg
      rcases hg with ⟨i, _, rfl⟩
      exact ⟨rfl, Nat.lt_succ_self _⟩
  · intro st snap d hmiss
    unfold isGPUBusy
    by_cases hd : d ∈ st.allocated_gpus
    · simp [hd]
    · have hfind : (snap.getD []).find? (fun g => g.device_id == d) = none := by
        rw [List.find?_eq_none]
        intro g hg
        simpa using hmiss g hg
      simp [hd, hfind]
  · intro st snap i hi hmiss
    have hfind : (queryGPUs st snap).find? (fun g => g.device_id == (i : Int)) = none := by
      rw [List.find?_eq_none]
      intro g hg
      simpa using hmiss g hg
    have havail : gpuIndexAvailable st snap i = decide ((i : Int) ∉ st.allocated_gpus) := by
      unfold gpuIndexAvailable
      rw [hfind]
    constructor
    · intro hmem
      simp only [getAvailableGPUs, List.mem_map, List.mem_filter,
        List.mem_range] at hmem
      rcases hmem with ⟨j, ⟨_, hj⟩, hji⟩
      have : j = i := by exact_mod_cast hji
      subst this
      rw [havail] at hj
      simpa using hj
    · intro hnot
      simp only [getAvailableGPUs, List.mem_map, List.mem_filter, List.mem_range]
      exact ⟨i, ⟨hi, by rw [havail]; simpa using hnot⟩, rfl⟩

/-- C5, witness: device 1 is absent from the one-row snapshot, so `isGPUBusy`
reports it busy, yet `getAvailableGPUs` reports it available because it is
unreserved. -/
theorem gpuProbe_spec_witness :
    isGPUBusy ⟨100, 2, ∅⟩ (some [⟨0, 0, 16384, false, false⟩]) 1 = true ∧
      ((1 : Int) ∈ getAvailableGPUs ⟨100, 2, ∅⟩
          (some [⟨0, 0, 16384, false, false⟩]) ↔
        (1 : Int) ∉ (∅ : Finset Int)) :=
  ⟨gpuProbe_failure_and_missing_spec.2.1 ⟨100, 2, ∅⟩
      (some [⟨0, 0, 16384, false, false⟩]) 1 (by decide),
   gpuProbe_failure_and_missing_spec.2.2 ⟨100, 2, ∅⟩
      (some [⟨0, 0, 16384, false, false⟩]) 1 (by decide) (by decide)⟩

/-! ## C10: the empty request -/

/-- C10: for every ledger state and every probe environment,
`allocate(ncpu = 0, ngpu = 0, specific_cpus = [], specific_gpus = [])`
succeeds with empty CPU and GPU sets and returns the state — reserved sets
and sample clock — unchanged (so no availability or sustained-idle check was
performed). -/
theorem allocate_zero_request (s : RMState) (snap : Option (List GPUInfo))
    (util : Int → Nat → ℚ) (shuffle : List Int → List Int) :
    allocate s snap util shuffle 0 0 [] [] = (some { cpus := [], gpus := [] }, s) := by
  simp [allocate, allocateCPUPhase]

/-! ## Lemmas about the reserved sets -/

theorem gpuAllocate_nil (st : GPUMonitorState) : gpuAllocate st [] = st := by
  cases st
  simp [gpuAllocate]

theorem cpuAllocate_nil (st : CPUMonitorState) : cpuAllocate st [] = st := by
  cases st
  simp [cpuAllocate]

theorem union_toFinset_sdiff_cancel (A : Finset Int) (l : List Int)
    (h : ∀ x ∈ l, x ∉ A) : (A ∪ l.toFinset) \ l.toFinset = A := by
  ext x
  simp only [Finset.mem_sdiff, Finset.mem_union, List.mem_toFinset]
  constructor
  · rintro ⟨hx | hx, hnx⟩
    · exact hx
    · exact absurd hx hnx
  · intro hx
    exact ⟨Or.inl hx, fun hmem => h x hmem hx⟩

theorem cpuAllocate_release_cancel (st : CPUMonitorState) (l : List Int)
    (h : ∀ x ∈ l, x ∉ st.allocated_cpus) :
    cpuRelease (cpuAllocate st l) l = st := by
  cases st
  simp only [cpuAllocate, cpuRelease]
  congr 1
  exact union_toFinset_sdiff_cancel _ l h

theorem gpuAllocate_release_cancel (st : GPUMonitorState) (l : List Int)
    (h : ∀ x ∈ l, x ∉ st.allocated_gpus) :
    gpuRelease (gpuAllocate st l) l = st := by
  cases st
  simp only [gpuAllocate, gpuRelease]
  congr 1
  exact union_toFinset_sdiff_cancel _ l h

/-! ## Lemmas about GPU availability -/

theorem queryGPUs_is_allocated (st : GPUMonitorState)
    (snap : Option (List GPUInfo)) :
    ∀ g ∈ queryGPUs st snap,
      g.is_allocated = decide (g.device_id ∈ st.allocated_gpus) := by
  intro g hg
  cases snap with
  | none =>
      simp only [queryGPUs, List.mem_map] at hg
      rcases hg with ⟨i, _, rfl⟩
      rfl
  | some l =>
      simp only [queryGPUs, List.mem_map] at hg
      rcases hg with ⟨g0, _, rfl⟩
      rfl

theorem mem_getAvailableGPUs_not_allocated (st : GPUMonitorState)
    (snap : Option (List GPUInfo)) (x : Int)
    (hx : x ∈ getAvailableGPUs st snap) : x ∉ st.allocated_gpus := by
  simp only [getAvailableGPUs, List.mem_map, List.mem_filter,
    List.mem_range] at hx
  rcases hx with ⟨i, ⟨_, hav⟩, rfl⟩
  unfold gpuIndexAvailable at hav
  cases hfind : (queryGPUs st snap).find? (fun g => g.device_id == (i : Int)) with
  | none =>
      rw [hfind] at hav
      simpa using hav
  | some g =>
      rw [hfind] at hav
      have hpred := List.find?_some hfind
      have hmem := List.mem_of_find?_eq_some hfind
      have hdev : g.device_id = (i : Int) := by simpa using hpred
      have halloc := queryGPUs_is_allocated st snap g hmem
      simp only [Bool.and_eq_true, Bool.not_eq_true'] at hav
      rw [halloc, hdev] at hav
      simpa using hav.2

theorem getAvailableGPUs_sorted (st : GPUMonitorState)
    (snap : Option (List GPUInfo)) :
    List.Pairwise (· < ·) (getAvailableGPUs st snap) := by
  unfold getAvailableGPUs
  refine List.Pairwise.map _ ?_ (List.Pairwise.filter _ (List.pairwise_lt_range _))
  intro a b hab
  exact_mod_cast hab

theorem isGPUBusy_false_not_allocated (st : GPUMonitorState)
    (snap : Option (List GPUInfo)) (x : Int)
    (h : isGPUBusy st snap x = false) : x ∉ st.allocated_gpus := by
  intro hmem
  simp [isGPUBusy, hmem] at h

/-! ## Lemmas about the GPU allocation phase -/

theorem rmAllocateGPUs_spec (excluded : Finset Int) (st : GPUMonitorState)
    (snap : Option (List GPUInfo)) (ngpu : Int) (specific : List Int) :
    (rmAllocateGPUs excluded st snap ngpu specific).2 =
      gpuAllocate st (rmAllocateGPUs excluded st snap ngpu specific).1 ∧
    (∀ x ∈ (rmAllocateGPUs excluded st snap ngpu specific).1,
      x ∉ st.allocated_gpus) ∧
    (specific ≠ [] →
      (rmAllocateGPUs excluded st snap ngpu specific).1 = [] ∨
      (rmAllocateGPUs excluded st snap ngpu specific).1 = specific) ∧
    (specific = [] →
      (rmAllocateGPUs excluded st snap ngpu specific).1 = [] ∨
      ((rmAllocateGPUs excluded st snap ngpu specific).1.length : Int) = ngpu) ∧
    (specific = [] →
      List.Pairwise (· < ·) (rmAllocateGPUs excluded st snap ngpu specific).1) := by
  by_cases hs : specific ≠ []
  · simp only [rmAllocateGPUs, if_pos hs]
    by_cases h1 : specific.any (fun g => decide (g ∈ excluded))
    · simp only [if_pos h1]
      exact ⟨(gpuAllocate_nil st).symm, by simp, fun _ => by simp,
        fun h => absurd h hs, fun h => absurd h hs⟩
    · simp only [if_neg h1]
      by_cases h2 : specific.any (fun g => isGPUBusy st snap g)
      · simp only [if_pos h2]
        exact ⟨(gpuAllocate_nil st).symm, by simp, fun _ => by simp,
          fun h => absurd h hs, fun h => absurd h hs⟩
      · simp only [if_neg h2]
        refine ⟨by trivial, ?_, fun _ => by simp,
          fun h => absurd h hs, fun h => absurd h hs⟩
        intro x hx
        have hfalse : isGPUBusy st snap x = false := by
          have := (List.any_eq_false (p := fun g => isGPUBusy st snap g)
            (l := specific)).mp (Bool.not_eq_true _ ▸ Bool.of_not_eq_true h2)
          simpa using this x hx
        exact isGPUBusy_false_not_allocated st snap x hfalse
  · push_neg at hs
    subst hs
    simp only [rmAllocateGPUs]
    simp only [ne_eq, not_true_eq_false, if_false, reduceIte]
    by_cases hlen :
        (((((getAvailableGPUs st snap).filter
            (fun g => decide (g ∉ excluded))).take ngpu.toNat).length : Int)) < ngpu
    · simp only [if_pos hlen]
      exact ⟨(gpuAllocate_nil st).symm, by simp, by simp, fun _ => by simp,
        fun _ => List.Pairwise.nil⟩
    · simp only [if_neg hlen]
      refine ⟨by trivial, ?_, by simp, fun _ => ?_, fun _ => ?_⟩
      · intro x hx
        have hx1 : x ∈ (getAvailableGPUs st snap).filter
            (fun g => decide (g ∉ excluded)) := List.mem_of_mem_take hx
        have hx2 : x ∈ getAvailableGPUs st snap := List.mem_of_mem_filter hx1
        exact mem_getAvailableGPUs_not_allocated st snap x hx2
      · rcases le_or_lt ngpu 0 with hng | hng
        · left
          have : ngpu.toNat = 0 := Int.toNat_of_nonpos hng
          simp [this]
        · right
          have hle : (((getAvailableGPUs st snap).filter
              (fun g => decide (g ∉ excluded))).take ngpu.toNat).length ≤ ngpu.toNat := by
            simp [List.length_take]
          push_neg at hlen
          have h2 : ((((getAvailableGPUs st snap).filter
              (fun g => decide (g ∉ excluded))).take ngpu.toNat).length : Int) ≤ ngpu := by
            calc ((((getAvailableGPUs st snap).filter
                (fun g => decide (g ∉ excluded))).take ngpu.toNat).length : Int)
                ≤ (ngpu.toNat : Int) := by exact_mod_cast hle
              _ = ngpu := Int.toNat_of_nonneg (le_of_lt hng)
          omega
      · exact List.Pairwise.sublist
          ((List.take_sublist _ _).trans (List.filter_sublist _))
          (getAvailableGPUs_sorted st snap)

/-! ## Lemmas about the CPU allocation phase -/

theorem checkCPUAvailable_true_not_allocated (st : CPUMonitorState)
    (util : Int → Nat → ℚ) (clock : Nat) (core : Int)
    (h : (checkCPUAvailable st util clock core).1 = true) :
    core ∉ st.allocated_cpus := by
  intro hmem
  simp [checkCPUAvailable, hmem] at h

theorem checkSpecificCPUs_true (st : CPUMonitorState) (util : Int → Nat → ℚ) :
    ∀ (l : List Int) (clock : Nat),
      (checkSpecificCPUs st util l clock).1 = true →
      ∀ x ∈ l, x ∉ st.allocated_cpus := by
  intro l
  induction l with
  | nil => intro clock _ x hx; cases hx
  | cons c rest ih =>
      intro clock h x hx
      by_cases hc : (checkCPUAvailable st util clock c).1 = true
      · rcases List.mem_cons.mp hx with rfl | hx2
        · exact checkCPUAvailable_true_not_allocated st util clock x hc
        · simp only [checkSpecificCPUs, if_pos hc] at h
          exact ih _ h x hx2
      · simp only [checkSpecificCPUs, Bool.not_eq_true] at h hc
        rw [if_neg (by simp [hc])] at h
        cases h

theorem autoCPULoop_spec (util : Int → Nat → ℚ) (ncpu : Int) :
    ∀ (cands : List Int) (cst : CPUMonitorState) (clock : Nat) (acc : List Int),
      ∃ extras,
        (autoCPULoop util ncpu cands cst clock acc).1 = acc ++ extras ∧
        (∀ x ∈ extras, x ∉ cst.allocated_cpus) ∧
        (autoCPULoop util ncpu cands cst clock acc).2.1 = cpuAllocate cst extras := by
  intro cands
  induction cands with
  | nil =>
      intro cst clock acc
      exact ⟨[], by simp [autoCPULoop], by simp, by simp [autoCPULoop, cpuAllocate_nil]⟩
  | cons c rest ih =>
      intro cst clock acc
      by_cases hstop : (acc.length : Int) ≥ ncpu
      · exact ⟨[], by simp [autoCPULoop, if_pos hstop], by simp,
          by simp [autoCPULoop, if_pos hstop, cpuAllocate_nil]⟩
      · by_cases hok : (checkCPUAvailable cst util clock c).1 = true
        · rcases ih (cpuAllocate cst [c]) (checkCPUAvailable cst util clock c).2
            (acc ++ [c]) with ⟨extras2, h1, h2, h3⟩
          refine ⟨c :: extras2, ?_, ?_, ?_⟩
          · simp only [autoCPULoop, if_neg hstop, if_pos hok]
            rw [h1, List.append_assoc]
            rfl
          · intro x hx
            rcases List.mem_cons.mp hx with rfl | hx2
            · exact checkCPUAvailable_true_not_allocated cst util clock x hok
            · have := h2 x hx2
              simp only [cpuAllocate, Finset.mem_union, List.toFinset_cons,
                List.toFinset_nil, insert_emptyc_eq, Finset.mem_insert] at this
              intro hmem
              exact this (Or.inl hmem)
          · simp only [autoCPULoop, if_neg hstop, if_pos hok]
            rw [h3]
            cases cst
            simp only [cpuAllocate]
            congr 1
            ext x
            simp only [Finset.mem_union, List.toFinset_cons, List.toFinset_nil,
              insert_emptyc_eq, Finset.mem_insert, Finset.mem_singleton]
            tauto
        · rcases ih cst (checkCPUAvailable cst util clock c).2 acc with
            ⟨extras2, h1, h2, h3⟩
          refine ⟨extras2, ?_, h2, ?_⟩
          · simp only [autoCPULoop, if_neg hstop]
            rw [if_neg (by simpa using hok)]
            exact h1
          · simp only [autoCPULoop, if_neg hstop]
            rw [if_neg (by simpa using hok)]
            exact h3

theorem autoCPULoop_length_le (util : Int → Nat → ℚ) (ncpu : Int) :
    ∀ (cands : List Int) (cst : CPUMonitorState) (clock : Nat) (acc : List Int),
      (autoCPULoop util ncpu cands cst clock acc).1.length ≤
        max acc.length ncpu.toNat := by
  intro cands
  induction cands with
  | nil => intro cst clock acc; simp [autoCPULoop]
  | cons c rest ih =>
      intro cst clock acc
      by_cases hstop : (acc.length : Int) ≥ ncpu
      · simp [autoCPULoop, if_pos hstop]
      · have hlt : (acc.length : Int) < ncpu := lt_of_not_ge hstop
        have hpos : 0 < ncpu := lt_of_le_of_lt (Int.ofNat_nonneg _) hlt
        by_cases hok : (checkCPUAvailable cst util clock c).1 = true
        · simp only [autoCPULoop, if_neg hstop, if_pos hok]
          have := ih (cpuAllocate cst [c]) (checkCPUAvailable cst util clock c).2
            (acc ++ [c])
          refine le_trans this ?_
          have hle : acc.length + 1 ≤ ncpu.toNat := by omega
          simp only [List.length_append, List.length_cons, List.length_nil]
          omega
        · simp only [autoCPULoop, if_neg hstop]
          rw [if_neg (by simpa using hok)]
          exact ih cst (checkCPUAvailable cst util clock c).2 acc

theorem rmAllocateCPUs_spec (excluded : Finset Int) (st : CPUMonitorState)
    (util : Int → Nat → ℚ) (shuffle : List Int → List Int) (clock : Nat)
    (ncpu : Int) (ag : Int) (specific : List Int) :
    (∀ x ∈ (rmAllocateCPUs excluded st util shuffle clock ncpu ag specific).1,
      x ∉ st.allocated_cpus) ∧
    (rmAllocateCPUs excluded st util shuffle clock ncpu ag specific).2.1 =
      cpuAllocate st (rmAllocateCPUs excluded st util shuffle clock ncpu ag specific).1 ∧
    (specific ≠ [] →
      (rmAllocateCPUs excluded st util shuffle clock ncpu ag specific).1 = [] ∨
      (rmAllocateCPUs excluded st util shuffle clock ncpu ag specific).1 = specific) ∧
    (specific = [] →
      (rmAllocateCPUs excluded st util shuffle clock ncpu ag specific).1 = [] ∨
      ((rmAllocateCPUs excluded st util shuffle clock ncpu ag specific).1.length : Int)
        = ncpu) := by
  by_cases hs : specific ≠ []
  · simp only [rmAllocateCPUs, if_pos hs]
    by_cases h1 : specific.any (fun c => decide (c ∈ excluded))
    · simp only [if_pos h1]
      exact ⟨by simp, (cpuAllocate_nil st).symm, fun _ => by simp,
        fun h => absurd h hs⟩
    · simp only [if_neg h1]
      by_cases h2 : (checkSpecificCPUs st util specific clock).1 = true
      · simp only [if_pos h2]
        exact ⟨checkSpecificCPUs_true st util specific clock h2, by trivial,
          fun _ => by simp, fun h => absurd h hs⟩
      · rw [if_neg (by simpa using h2)]
        exact ⟨by simp, (cpuAllocate_nil st).symm, fun _ => by simp,
          fun h => absurd h hs⟩
  · push_neg at hs
    subst hs
    simp only [rmAllocateCPUs]
    simp only [ne_eq, not_true_eq_false, if_false, reduceIte]
    by_cases hlen :
        ((((getAvailableCPUs st ag).filter
          (fun c => decide (c ∉ excluded))).length : Int)) < ncpu
    · simp only [if_pos hlen]
      exact ⟨by simp, (cpuAllocate_nil st).symm, by simp, fun _ => by simp⟩
    · simp only [if_neg hlen]
      rcases autoCPULoop_spec util ncpu
          (shuffle ((getAvailableCPUs st ag).filter (fun c => decide (c ∉ excluded))))
          st clock [] with ⟨extras, h1, h2, h3⟩
      simp only [List.nil_append] at h1
      by_cases hfin :
          (((autoCPULoop util ncpu
            (shuffle ((getAvailableCPUs st ag).filter (fun c => decide (c ∉ excluded))))
            st clock []).1.length : Int)) < ncpu
      · simp only [if_pos hfin]
        refine ⟨by simp, ?_, by simp, fun _ => by simp⟩
        rw [h3, h1]
        rw [cpuAllocate_release_cancel st extras h2]
        exact (cpuAllocate_nil st).symm
      · simp only [if_neg hfin]
        refine ⟨?_, ?_, by simp, fun _ => ?_⟩
        · rw [h1]; exact h2
        · rw [h3, h1]
        · have hub := autoCPULoop_length_le util ncpu
            (shuffle ((getAvailableCPUs st ag).filter (fun c => decide (c ∉ excluded))))
            st clock []
          simp only [List.length_nil, Nat.max_eq_right (Nat.zero_le _)] at hub
          push_neg at hfin
          rcases le_or_lt ncpu 0 with hng | hng
          · left
            have hz : ncpu.toNat = 0 := Int.toNat_of_nonpos hng
            rw [hz] at hub
            exact List.length_eq_zero.mp (Nat.le_zero.mp hub)
          · right
            have h4 : (((autoCPULoop util ncpu
                (shuffle ((getAvailableCPUs st ag).filter
                  (fun c => decide (c ∉ excluded))))
                st clock []).1.length : Int)) ≤ ncpu := by
              calc (((autoCPULoop util ncpu
                  (shuffle ((getAvailableCPUs st ag).filter
                    (fun c => decide (c ∉ excluded))))
                  st clock []).1.length : Int))
                  ≤ (ncpu.toNat : Int) := by exact_mod_cast hub
                _ = ncpu := Int.toNat_of_nonneg (le_of_lt hng)
            omega

/-! ## Lemmas about the two phases of `ResourceMonitor::allocate` -/

theorem allocateCPUPhase_some (s : RMState) (util : Int → Nat → ℚ)
    (shuffle : List Int → List Int) (ncpu : Int) (sc gpus : List Int)
    (res : AllocationResult) (s' : RMState)
    (h : allocateCPUPhase s util shuffle ncpu sc gpus = (some res, s')) :
    res.gpus = gpus ∧
    (∀ x ∈ res.cpus, x ∉ s.cpu.allocated_cpus) ∧
    s'.cpu.allocated_cpus = s.cpu.allocated_cpus ∪ res.cpus.toFinset ∧
    s'.gpu = s.gpu := by
  by_cases h1 : ncpu > 0 ∨ sc ≠ []
  · simp only [allocateCPUPhase, if_pos h1] at h
    by_cases hc2 : sc ≠ [] ∧
        (rmAllocateCPUs s.excluded_cpus s.cpu util shuffle s.clock ncpu
          (determineAffinityGroup gpus) sc).1.length ≠ sc.length
    · rw [if_pos hc2] at h
      cases h
    · rw [if_neg hc2] at h
      by_cases hc3 : sc = [] ∧
          ((rmAllocateCPUs s.excluded_cpus s.cpu util shuffle s.clock ncpu
            (determineAffinityGroup gpus) sc).1.length : Int) < ncpu
      · rw [if_pos hc3] at h
        cases h
      · rw [if_neg hc3] at h
        rw [Prod.mk.injEq] at h
        rcases h with ⟨hres, hs'⟩
        rcases rmAllocateCPUs_spec s.excluded_cpus s.cpu util shuffle s.clock ncpu
          (determineAffinityGroup gpus) sc with ⟨hd, hst, -, -⟩
        have hres' : res = { cpus := (rmAllocateCPUs s.excluded_cpus s.cpu util
            shuffle s.clock ncpu (determineAffinityGroup gpus) sc).1, gpus := gpus } := by
          exact (Option.some.injEq _ _ ▸ hres).symm
        subst hres'
        subst hs'
        exact ⟨rfl, hd, by rw [hst]; rfl, rfl⟩
  · simp only [allocateCPUPhase, if_neg h1] at h
    rw [Prod.mk.injEq] at h
    rcases h with ⟨hres, hs'⟩
    have hres' : res = { cpus := [], gpus := gpus } :=
      (Option.some.injEq _ _ ▸ hres).symm
    subst hres'
    subst hs'
    exact ⟨rfl, by simp, by simp, rfl⟩

theorem allocateCPUPhase_none (s : RMState) (util : Int → Nat → ℚ)
    (shuffle : List Int → List Int) (ncpu : Int) (sc gpus : List Int)
    (s' : RMState)
    (h : allocateCPUPhase s util shuffle ncpu sc gpus = (none, s')) :
    s'.cpu.allocated_cpus = s.cpu.allocated_cpus ∧
    s'.gpu.allocated_gpus = s.gpu.allocated_gpus \ gpus.toFinset := by
  rcases rmAllocateCPUs_spec s.excluded_cpus s.cpu util shuffle s.clock ncpu
    (determineAffinityGroup gpus) sc with ⟨-, hst, hspec, hauto⟩
  by_cases h1 : ncpu > 0 ∨ sc ≠ []
  · simp only [allocateCPUPhase, if_pos h1] at h
    by_cases hc2 : sc ≠ [] ∧
        (rmAllocateCPUs s.excluded_cpus s.cpu util shuffle s.clock ncpu
          (determineAffinityGroup gpus) sc).1.length ≠ sc.length
    · rw [if_pos hc2] at h
      have hnil : (rmAllocateCPUs s.excluded_cpus s.cpu util shuffle s.clock ncpu
          (determineAffinityGroup gpus) sc).1 = [] := by
        rcases hspec hc2.1 with hn | he
        · exact hn
        · exact absurd (by rw [he]) hc2.2
      rw [Prod.mk.injEq] at h
      rcases h with ⟨-, hs'⟩
      subst hs'
      rw [hnil] at hst
      rw [cpuAllocate_nil] at hst
      by_cases hgs : gpus ≠ []
      · rw [if_pos hgs]
        exact ⟨by rw [hst], rfl⟩
      · rw [if_neg hgs]
        push_neg at hgs
        subst hgs
        exact ⟨by rw [hst], by simp⟩
    · rw [if_neg hc2] at h
      by_cases hc3 : sc = [] ∧
          ((rmAllocateCPUs s.excluded_cpus s.cpu util shuffle s.clock ncpu
            (determineAffinityGroup gpus) sc).1.length : Int) < ncpu
      · rw [if_pos hc3] at h
        have hnil : (rmAllocateCPUs s.excluded_cpus s.cpu util shuffle s.clock ncpu
            (determineAffinityGroup gpus) sc).1 = [] := by
          rcases hauto hc3.1 with hn | he
          · exact hn
          · omega
        rw [Prod.mk.injEq] at h
        rcases h with ⟨-, hs'⟩
        subst hs'
        rw [hnil] at hst
        rw [cpuAllocate_nil] at hst
        by_cases hgs : gpus ≠ []
        · rw [if_pos hgs]
          exact ⟨by rw [hst], rfl⟩
        · rw [if_neg hgs]
          push_neg at hgs
          subst hgs
          exact ⟨by rw [hst], by simp⟩
      · rw [if_neg hc3] at h
        cases h
  · simp only [allocateCPUPhase, if_neg h1] at h
    cases h

/-! ## C1: successful allocations are disjoint from the reserved sets -/

/-- C1: for every ledger state (hence along every sequence of
allocate/release calls) and every request shape, a successful `allocate`
returns a CPU list and a GPU list each disjoint from the respective reserved
set before the call, and the new reserved sets are exactly the old ones plus
the returned resources — so no CPU or GPU is ever carried by two live
allocations (sequential version of the concurrent invariant). -/
theorem allocate_success_disjoint (s : RMState) (snap : Option (List GPUInfo))
    (util : Int → Nat → ℚ) (shuffle : List Int → List Int) (ncpu ngpu : Int)
    (sc sg : List Int) (res : AllocationResult) (s' : RMState)
    (h : allocate s snap util shuffle ncpu ngpu sc sg = (some res, s')) :
    (∀ x ∈ res.cpus, x ∉ s.cpu.allocated_cpus) ∧
    (∀ x ∈ res.gpus, x ∉ s.gpu.allocated_gpus) ∧
    s'.cpu.allocated_cpus = s.cpu.allocated_cpus ∪ res.cpus.toFinset ∧
    s'.gpu.allocated_gpus = s.gpu.allocated_gpus ∪ res.gpus.toFinset := by
  rcases rmAllocateGPUs_spec s.excluded_gpus s.gpu snap ngpu sg with
    ⟨hgst, hgdisj, -, -, -⟩
  by_cases hg : ngpu > 0 ∨ sg ≠ []
  · simp only [allocate, if_pos hg] at h
    by_cases hf1 : sg ≠ [] ∧
        (rmAllocateGPUs s.excluded_gpus s.gpu snap ngpu sg).1.length ≠ sg.length
    · rw [if_pos hf1] at h
      cases h
    · rw [if_neg hf1] at h
      by_cases hf2 : sg = [] ∧
          ((rmAllocateGPUs s.excluded_gpus s.gpu snap ngpu sg).1.length : Int) < ngpu
      · rw [if_pos hf2] at h
        cases h
      · rw [if_neg hf2] at h
        rcases allocateCPUPhase_some _ util shuffle ncpu sc _ res s' h with
          ⟨hresg, hcdisj, hcups, hgueq⟩
        refine ⟨hcdisj, ?_, hcups, ?_⟩
        · rw [hresg]
          exact hgdisj
        · rw [hgueq]
          show (rmAllocateGPUs s.excluded_gpus s.gpu snap ngpu sg).2.allocated_gpus = _
          rw [hgst, hresg]
          rfl
  · simp only [allocate, if_neg hg] at h
    rcases allocateCPUPhase_some _ util shuffle ncpu sc _ res s' h with
      ⟨hresg, hcdisj, hcups, hgueq⟩
    refine ⟨hcdisj, ?_, hcups, ?_⟩
    · rw [hresg]
      intro x hx
      cases hx
    · rw [hgueq, hresg]
      simp

/-- C1, witness: from an empty ledger (4 CPUs, 2 GPUs, both devices idle,
all cores at 10% of a 50% threshold), requesting 1 CPU and 1 GPU succeeds
with CPUs `[0]` and GPUs `[0]`, disjoint from the (empty) reserved sets, and
the new reserved sets are `{0}` and `{0}`. -/
theorem allocate_success_disjoint_witness :
    (∀ x ∈ ({ cpus := [0], gpus := [0] } : AllocationResult).cpus,
      x ∉ (⟨⟨50, 4, 1000, 500, ∅⟩, ⟨100, 2, ∅⟩, ∅, ∅, 0⟩ : RMState).cpu.allocated_cpus) ∧
    (∀ x ∈ ({ cpus := [0], gpus := [0] } : AllocationResult).gpus,
      x ∉ (⟨⟨50, 4, 1000, 500, ∅⟩, ⟨100, 2, ∅⟩, ∅, ∅, 0⟩ : RMState).gpu.allocated_gpus) ∧
    (⟨⟨50, 4, 1000, 500, {0}⟩, ⟨100, 2, {0}⟩, ∅, ∅, 2⟩ : RMState).cpu.allocated_cpus =
      (⟨⟨50, 4, 1000, 500, ∅⟩, ⟨100, 2, ∅⟩, ∅, ∅, 0⟩ : RMState).cpu.allocated_cpus ∪
        ({ cpus := [0], gpus := [0] } : AllocationResult).cpus.toFinset ∧
    (⟨⟨50, 4, 1000, 500, {0}⟩, ⟨100, 2, {0}⟩, ∅, ∅, 2⟩ : RMState).gpu.allocated_gpus =
      (⟨⟨50, 4, 1000, 500, ∅⟩, ⟨100, 2, ∅⟩, ∅, ∅, 0⟩ : RMState).gpu.allocated_gpus ∪
        ({ cpus := [0], gpus := [0] } : AllocationResult).gpus.toFinset :=
  allocate_success_disjoint ⟨⟨50, 4, 1000, 500, ∅⟩, ⟨100, 2, ∅⟩, ∅, ∅, 0⟩
    (some [⟨0, 0, 16384, false, false⟩, ⟨1, 0, 16384, false, false⟩])
    (fun _ _ => 10) (fun l => l) 1 1 [] []
    { cpus := [0], gpus := [0] } ⟨⟨50, 4, 1000, 500, {0}⟩, ⟨100, 2, {0}⟩, ∅, ∅, 2⟩
    (by decide)

/-! ## C2: failed allocations have zero net effect -/

/-- C2: whenever `allocate` returns Unavailable (`none`) — for any request
shape: specific or count-based CPUs and GPUs, including the partial-CPU
failure after GPUs were provisionally reserved — the reserved CPU set and
the reserved GPU set after the call equal their pre-call values (full
rollback). -/
theorem allocate_failure_preserves (s : RMState) (snap : Option (List GPUInfo))
    (util : Int → Nat → ℚ) (shuffle : List Int → List Int) (ncpu ngpu : Int)
    (sc sg : List Int) (s' : RMState)
    (h : allocate s snap util shuffle ncpu ngpu sc sg = (none, s')) :
    s'.cpu.allocated_cpus = s.cpu.allocated_cpus ∧
    s'.gpu.allocated_gpus = s.gpu.allocated_gpus := by
  rcases rmAllocateGPUs_spec s.excluded_gpus s.gpu snap ngpu sg with
    ⟨hgst, hgdisj, hgspec, hgauto, -⟩
  by_cases hg : ngpu > 0 ∨ sg ≠ []
  · simp only [allocate, if_pos hg] at h
    by_cases hf1 : sg ≠ [] ∧
        (rmAllocateGPUs s.excluded_gpus s.gpu snap ngpu sg).1.length ≠ sg.length
    · rw [if_pos hf1] at h
      have hnil : (rmAllocateGPUs s.excluded_gpus s.gpu snap ngpu sg).1 = [] := by
        rcases hgspec hf1.1 with hn | he
        · exact hn
        · exact absurd (by rw [he]) hf1.2
      rw [Prod.mk.injEq] at h
      rcases h with ⟨-, hs'⟩
      subst hs'
      rw [hnil, gpuAllocate_nil] at hgst
      exact ⟨rfl, by rw [hgst]⟩
    · rw [if_neg hf1] at h
      by_cases hf2 : sg = [] ∧
          ((rmAllocateGPUs s.excluded_gpus s.gpu snap ngpu sg).1.length : Int) < ngpu
      · rw [if_pos hf2] at h
        have hnil : (rmAllocateGPUs s.excluded_gpus s.gpu snap ngpu sg).1 = [] := by
          rcases hgauto hf2.1 with hn | he
          · exact hn
          · omega
        rw [Prod.mk.injEq] at h
        rcases h with ⟨-, hs'⟩
        subst hs'
        rw [hnil, gpuAllocate_nil] at hgst
        exact ⟨rfl, by rw [hgst]⟩
      · rw [if_neg hf2] at h
        rcases allocateCPUPhase_none _ util shuffle ncpu sc _ s' h with ⟨hcpu, hgpu⟩
        refine ⟨hcpu, ?_⟩
        rw [hgpu]
        show (rmAllocateGPUs s.excluded_gpus s.gpu snap ngpu sg).2.allocated_gpus \ _ = _
        rw [hgst]
        exact union_toFinset_sdiff_cancel _ _ hgdisj
  · simp only [allocate, if_neg hg] at h
    rcases allocateCPUPhase_none _ util shuffle ncpu sc _ s' h with ⟨hcpu, hgpu⟩
    refine ⟨hcpu, ?_⟩
    rw [hgpu]
    simp

/-- C2, witness: with both GPUs over threshold, a 1-GPU request fails and the
reserved sets are unchanged. -/
theorem allocate_failure_preserves_witness :
    (⟨⟨50, 4, 1000, 500, ∅⟩, ⟨100, 2, ∅⟩, ∅, ∅, 0⟩ : RMState).cpu.allocated_cpus =
      (⟨⟨50, 4, 1000, 500, ∅⟩, ⟨100, 2, ∅⟩, ∅, ∅, 0⟩ : RMState).cpu.allocated_cpus ∧
    (⟨⟨50, 4, 1000, 500, ∅⟩, ⟨100, 2, ∅⟩, ∅, ∅, 0⟩ : RMState).gpu.allocated_gpus =
      (⟨⟨50, 4, 1000, 500, ∅⟩, ⟨100, 2, ∅⟩, ∅, ∅, 0⟩ : RMState).gpu.allocated_gpus :=
  allocate_failure_preserves ⟨⟨50, 4, 1000, 500, ∅⟩, ⟨100, 2, ∅⟩, ∅, ∅, 0⟩
    (some [⟨0, 200, 16384, false, false⟩, ⟨1, 200, 16384, false, false⟩])
    (fun _ _ => 10) (fun l => l) 0 1 [] []
    ⟨⟨50, 4, 1000, 500, ∅⟩, ⟨100, 2, ∅⟩, ∅, ∅, 0⟩ (by decide)

/-! ## Lemmas about the task store -/

theorem qLookup_qUpdate (q : TaskMap) (id0 : Nat) (f : Task → Task) (t : Task)
    (h : qLookup q id0 = some t) : qLookup (qUpdate q id0 f) id0 = some (f t) := by
  induction q with
  | nil => simp [qLookup] at h
  | cons p rest ih =>
      cases hb : (p.1 == id0) with
      | false =>
          simp only [qLookup, qUpdate, List.map_cons, List.find?_cons] at h ⊢
          simp only [hb, Bool.false_eq_true, if_false] at h ⊢
          exact ih h
      | true =>
          simp only [qLookup, qUpdate, List.map_cons, List.find?_cons] at h ⊢
          simp [hb] at h ⊢
          rw [h]

/-! ## C6: supervise path records Completed regardless of exit code -/

/-- C6: whenever the supervise loop observes that a running task's process
has terminated, `handleTaskCompletion` — for every exit code, zero or not —
releases the task's resources and transitions it to `COMPLETED` with that
exit code recorded; it never produces `FAILED`. -/
theorem handleTaskCompletion_always_completed (q : TaskMap) (rm : RMState)
    (task_id : Nat) (exit_code : Int) (now : Nat) (t : Task)
    (hl : qLookup q task_id = some t) (hr : t.status = .running) :
    qLookup (handleTaskCompletion q rm task_id exit_code now).1 task_id =
      some { t with status := .completed, exit_code := exit_code,
                    end_time := some now } ∧
    (handleTaskCompletion q rm task_id exit_code now).2 =
      rmRelease rm t.allocated_cpus t.allocated_gpus := by
  unfold handleTaskCompletion setTaskCompleted
  rw [hl]
  have hne : ¬ t.status ≠ TaskStatus.running := by simp [hr]
  refine ⟨?_, ?_⟩
  · simp only [if_neg hne]
    exact qLookup_qUpdate q task_id _ t hl
  · simp only [if_neg hne]

/-- C6, witness: a running task with pid 42 that exits with code 3 ends up
`COMPLETED` with `exit_code = 3`. -/
theorem handleTaskCompletion_witness :
    qLookup (handleTaskCompletion
        [(1, { id := 1, status := .running, pid := 42, allocated_cpus := [0],
               allocated_gpus := [1] })]
        ⟨⟨50, 64, 3000, 500, {0}⟩, ⟨100, 8, {1}⟩, ∅, ∅, 0⟩ 1 3 9).1 1 =
      some { id := 1, status := .completed, pid := 42, allocated_cpus := [0],
             allocated_gpus := [1], exit_code := 3, end_time := some 9 } ∧
    (handleTaskCompletion
        [(1, { id := 1, status := .running, pid := 42, allocated_cpus := [0],
               allocated_gpus := [1] })]
        ⟨⟨50, 64, 3000, 500, {0}⟩, ⟨100, 8, {1}⟩, ∅, ∅, 0⟩ 1 3 9).2 =
      rmRelease ⟨⟨50, 64, 3000, 500, {0}⟩, ⟨100, 8, {1}⟩, ∅, ∅, 0⟩ [0] [1] :=
  handleTaskCompletion_always_completed
    [(1, { id := 1, status := .running, pid := 42, allocated_cpus := [0],
           allocated_gpus := [1] })]
    ⟨⟨50, 64, 3000, 500, {0}⟩, ⟨100, 8, {1}⟩, ∅, ∅, 0⟩ 1 3 9
    { id := 1, status := .running, pid := 42, allocated_cpus := [0],
      allocated_gpus := [1] } rfl rfl

/-! ## C3: startup recovery and the ledger -/

/-- C3: evaluating the recovery step of `Server::start` at a store holding
one `RUNNING` task (pid 42, CPUs `[0]`, GPUs `[1]`) against an initially
empty ledger. When the pid is still alive the task indeed stays `RUNNING`,
but — contrary to the claim and to the code's own comment "Restore resource
allocations for running tasks" — the ledger comes out with its reserved sets
still empty: nothing re-marks the live task's CPUs and GPUs. When the pid is
dead the task is transitioned to `FAILED` and the ledger is (correctly) left
empty. -/
theorem recovery_alive_task_not_remarked :
    (serverStartRecovery
        [(1, { id := 1, status := .running, pid := 42, allocated_cpus := [0],
               allocated_gpus := [1] })]
        ⟨⟨50, 64, 3000, 500, ∅⟩, ⟨100, 8, ∅⟩, ∅, ∅, 0⟩ (fun p => p == 42) 7) =
      ([(1, { id := 1, status := .running, pid := 42, allocated_cpus := [0],
              allocated_gpus := [1] })],
       ⟨⟨50, 64, 3000, 500, ∅⟩, ⟨100, 8, ∅⟩, ∅, ∅, 0⟩) ∧
    (⟨⟨50, 64, 3000, 500, ∅⟩, ⟨100, 8, ∅⟩, ∅, ∅, 0⟩ : RMState).cpu.allocated_cpus = ∅ ∧
    (⟨⟨50, 64, 3000, 500, ∅⟩, ⟨100, 8, ∅⟩, ∅, ∅, 0⟩ : RMState).gpu.allocated_gpus = ∅ ∧
    ((qLookup (serverStartRecovery
        [(1, { id := 1, status := .running, pid := 42, allocated_cpus := [0],
               allocated_gpus := [1] })]
        ⟨⟨50, 64, 3000, 500, ∅⟩, ⟨100, 8, ∅⟩, ∅, ∅, 0⟩ (fun _ => false) 7).1 1).map
      Task.status) = some .failed := by
  refine ⟨?_, rfl, rfl, ?_⟩ <;> rfl

/-! ## C7: manual termination -/

/-- C7, counterexample: terminating a running task (pid 42) with
`force = true` sends `SIGTERM`, not `SIGKILL`, as the first signal to the
process group — the implementation ignores the `force` flag. -/
theorem terminateTask_force_ignored_cex :
    (terminateTask
        [(1, { id := 1, status := .running, pid := 42 })]
        ⟨⟨50, 64, 3000, 500, ∅⟩, ⟨100, 8, ∅⟩, ∅, ∅, 0⟩
        ⟨fun _ _ => true, fun _ _ => true, fun _ _ => none⟩ 1 true).2.2.2.head? =
      some (-42, SIGTERM) ∧ SIGTERM ≠ SIGKILL := by
  exact ⟨rfl, by decide⟩

/-- C7 (amended): `terminateTask` returns `false` when the task is missing,
not `RUNNING`, or has no positive pid. On a running task the `force`
argument is ignored: the first signal sent to the process group is always
`SIGTERM`; when the process survives the 2000 ms await, a `SIGKILL` follows
(with its 1000 ms await), and when it exits within the await no further
signal is sent. -/
theorem terminateTask_spec (q : TaskMap) (rm : RMState) (w : ExecWorld)
    (task_id : Nat) (force : Bool) :
    (qLookup q task_id = none →
      (terminateTask q rm w task_id force).1 = false) ∧
    (∀ t, qLookup q task_id = some t → t.status ≠ .running →
      (terminateTask q rm w task_id force).1 = false) ∧
    (∀ t, qLookup q task_id = some t → t.status = .running → 0 < t.pid →
      w.groupKillOk t.pid SIGTERM = true →
      (terminateTask q rm w task_id force).1 = true ∧
      (terminateTask q rm w task_id force).2.2.2.head? = some (-t.pid, SIGTERM) ∧
      (w.waitResult t.pid 2000 = none → w.groupKillOk t.pid SIGKILL = true →
        (terminateTask q rm w task_id force).2.2.2 =
          [(-t.pid, SIGTERM), (-t.pid, SIGKILL)]) ∧
      ((∃ e, w.waitResult t.pid 2000 = some e) →
        (terminateTask q rm w task_id force).2.2.2 = [(-t.pid, SIGTERM)])) := by
  refine ⟨?_, ?_, ?_⟩
  · intro hnone
    unfold terminateTask
    rw [hnone]
  · intro t ht hs
    unfold terminateTask
    rw [ht]
    have : t.status ≠ TaskStatus.running ∨ t.pid ≤ 0 := Or.inl hs
    simp [this]
  · intro t ht hs hp hkill
    have hcond : ¬ (t.status ≠ TaskStatus.running ∨ t.pid ≤ 0) := by
      push_neg
      exact ⟨by simp [hs], by omega⟩
    have hterm : executorTerminate w t.pid false = (true, [(-t.pid, SIGTERM)]) := by
      unfold executorTerminate
      simp [hkill]
    refine ⟨?_, ?_, ?_, ?_⟩
    · unfold terminateTask
      rw [ht]
      simp [if_neg hcond, hterm]
    · unfold terminateTask
      rw [ht]
      simp only [if_neg hcond, hterm]
      cases hw : w.waitResult t.pid 2000 <;> simp
    · intro hwait hkill2
      unfold terminateTask
      rw [ht]
      simp only [if_neg hcond, hterm, hwait]
      unfold executorTerminate
      simp [hkill2]
    · rintro ⟨e, hwait⟩
      unfold terminateTask
      rw [ht]
      simp [if_neg hcond, hterm, hwait]

/-- C7, witness: a running task, a process group that accepts signals and a
process that never dies: the call reports success and the signal trace is
`SIGTERM` then `SIGKILL`, both to the process group. -/
theorem terminateTask_spec_witness :
    (terminateTask [(1, { id := 1, status := .running, pid := 42 })]
        ⟨⟨50, 64, 3000, 500, ∅⟩, ⟨100, 8, ∅⟩, ∅, ∅, 0⟩
        ⟨fun _ _ => true, fun _ _ => true, fun _ _ => none⟩ 1 false).1 = true ∧
    (terminateTask [(1, { id := 1, status := .running, pid := 42 })]
        ⟨⟨50, 64, 3000, 500, ∅⟩, ⟨100, 8, ∅⟩, ∅, ∅, 0⟩
        ⟨fun _ _ => true, fun _ _ => true, fun _ _ => none⟩ 1 false).2.2.2 =
      [(-42, SIGTERM), (-42, SIGKILL)] := by
  have h := (terminateTask_spec [(1, { id := 1, status := .running, pid := 42 })]
      ⟨⟨50, 64, 3000, 500, ∅⟩, ⟨100, 8, ∅⟩, ∅, ∅, 0⟩
      ⟨fun _ _ => true, fun _ _ => true, fun _ _ => none⟩ 1 false).2.2
      { id := 1, status := .running, pid := 42 } (by rfl) (by rfl) (by decide) (by rfl)
  exact ⟨h.1, by simpa using h.2.2.1 rfl rfl⟩

/-! ## Lemmas about decimal numerals and `stoull` -/

theorem digitChar_isDigit (d : Nat) (h : d < 10) : (digitChar d).isDigit = true := by
  interval_cases d <;> decide

theorem digitChar_val (d : Nat) (h : d < 10) : (digitChar d).toNat - 48 = d := by
  interval_cases d <;> decide

theorem isDigit_ne_dash (c : Char) (h : c.isDigit = true) : c ≠ '-' := by
  rintro rfl
  exact absurd h (by decide)

theorem isDigit_ne_plus (c : Char) (h : c.isDigit = true) : c ≠ '+' := by
  rintro rfl
  exact absurd h (by decide)

theorem isDigit_not_space (c : Char) (h : c.isDigit = true) : isSpaceC c = false := by
  have h1 : (c == ' ') = false := by
    rw [beq_eq_false_iff_ne]; rintro rfl; exact absurd h (by decide)
  have h2 : (c == '\t') = false := by
    rw [beq_eq_false_iff_ne]; rintro rfl; exact absurd h (by decide)
  have h3 : (c == '\n') = false := by
    rw [beq_eq_false_iff_ne]; rintro rfl; exact absurd h (by decide)
  have h4 : (c == '\x0b') = false := by
    rw [beq_eq_false_iff_ne]; rintro rfl; exact absurd h (by decide)
  have h5 : (c == '\x0c') = false := by
    rw [beq_eq_false_iff_ne]; rintro rfl; exact absurd h (by decide)
  have h6 : (c == '\r') = false := by
    rw [beq_eq_false_iff_ne]; rintro rfl; exact absurd h (by decide)
  simp [isSpaceC, h1, h2, h3, h4, h5, h6]

theorem digitsVal_append_singleton (ds : List Char) (c : Char) :
    digitsVal (ds ++ [c]) = 10 * digitsVal ds + (c.toNat - 48) := by
  simp [digitsVal, List.foldl_append]

theorem natDigitsAux_isDigit :
    ∀ (fuel n : Nat), n < fuel → ∀ c ∈ natDigitsAux fuel n, c.isDigit = true := by
  intro fuel
  induction fuel with
  | zero => intro n hn; omega
  | succ fuel ih =>
      intro n hn c hc
      unfold natDigitsAux at hc
      by_cases h10 : n < 10
      · rw [if_pos h10] at hc
        rcases List.mem_singleton.mp hc with rfl
        exact digitChar_isDigit n h10
      · rw [if_neg h10] at hc
        rcases List.mem_append.mp hc with hm | hm
        · have hdiv : n / 10 < n := Nat.div_lt_self (by omega) (by omega)
          exact ih (n / 10) (by omega) c hm
        · rcases List.mem_singleton.mp hm with rfl
          exact digitChar_isDigit (n % 10) (Nat.mod_lt n (by omega))

theorem natDigitsAux_val :
    ∀ (fuel n : Nat), n < fuel → digitsVal (natDigitsAux fuel n) = n := by
  intro fuel
  induction fuel with
  | zero => intro n hn; omega
  | succ fuel ih =>
      intro n hn
      unfold natDigitsAux
      by_cases h10 : n < 10
      · rw [if_pos h10]
        have : digitsVal [digitChar n] = (digitChar n).toNat - 48 := by
          simp [digitsVal]
        rw [this, digitChar_val n h10]
      · rw [if_neg h10]
        rw [digitsVal_append_singleton]
        have hdiv : n / 10 < n := Nat.div_lt_self (by omega) (by omega)
        rw [ih (n / 10) (by omega), digitChar_val (n % 10) (Nat.mod_lt n (by omega))]
        omega

theorem natDigits_isDigit (n : Nat) : ∀ c ∈ natDigits n, c.isDigit = true :=
  natDigitsAux_isDigit (n + 1) n (Nat.lt_succ_self n)

theorem natDigits_val (n : Nat) : digitsVal (natDigits n) = n :=
  natDigitsAux_val (n + 1) n (Nat.lt_succ_self n)

theorem takeWhile_all {p : Char → Bool} :
    ∀ l : List Char, (∀ c ∈ l, p c = true) → l.takeWhile p = l := by
  intro l
  induction l with
  | nil => intro _; rfl
  | cons c rest ih =>
      intro h
      rw [List.takeWhile_cons, h c (by simp)]
      simp only [if_true, reduceIte]
      rw [ih (fun x hx => h x (by simp [hx]))]

theorem stoull_all_digits (ds : List Char) (hne : ds ≠ [])
    (hdig : ∀ c ∈ ds, c.isDigit = true) (hle : digitsVal ds ≤ uMax) :
    stoull ds = some (digitsVal ds) := by
  rcases List.exists_cons_of_ne_nil hne with ⟨d, rest, rfl⟩
  have hd : d.isDigit = true := hdig d (by simp)
  have hdrop : (d :: rest).dropWhile isSpaceC = d :: rest := by
    rw [List.dropWhile_cons, isDigit_not_space d hd]
    simp
  have htake : (d :: rest).takeWhile Char.isDigit = d :: rest :=
    takeWhile_all (d :: rest) hdig
  simp only [stoull, hdrop]
  rw [if_neg (isDigit_ne_dash d hd), if_neg (isDigit_ne_plus d hd)]
  simp only [htake]
  rw [if_neg (by simp : ¬ (d :: rest) = [])]
  rw [if_pos hle]
  rfl

theorem findDash_all_digits :
    ∀ ds : List Char, (∀ c ∈ ds, c.isDigit = true) → findDash ds = none := by
  intro ds
  induction ds with
  | nil => intro _; rfl
  | cons c rest ih =>
      intro h
      unfold findDash
      rw [if_neg (by simpa using isDigit_ne_dash c (h c (by simp)))]
      rw [ih (fun x hx => h x (by simp [hx]))]
      rfl

theorem findDash_append_digits (ds es : List Char)
    (hdig : ∀ c ∈ ds, c.isDigit = true) :
    findDash (ds ++ '-' :: es) = some ds.length := by
  induction ds with
  | nil => simp [findDash]
  | cons c rest ih =>
      simp only [List.cons_append]
      unfold findDash
      rw [if_neg (by simpa using isDigit_ne_dash c (hdig c (by simp)))]
      rw [ih (fun x hx => hdig x (by simp [hx]))]
      rfl

theorem parseIdRange_digits_pair (a b : Nat) (ha : a ≤ uMax) (hb : b ≤ uMax) :
    parseIdRange (natDigits a ++ '-' :: natDigits b) =
      if a ≤ b then rangeIncl a b else [] := by
  have hlenA : 0 < (natDigits a).length := List.length_pos.mpr (natDigits_ne_nil a)
  have hlenB : 0 < (natDigits b).length := List.length_pos.mpr (natDigits_ne_nil b)
  have hfind := findDash_append_digits (natDigits a) (natDigits b) (natDigits_isDigit a)
  have hcond : 0 < (natDigits a).length ∧
      (natDigits a).length < (natDigits a ++ '-' :: natDigits b).length - 1 := by
    constructor
    · exact hlenA
    · simp only [List.length_append, List.length_cons]
      omega
  have htakeA : (natDigits a ++ '-' :: natDigits b).take (natDigits a).length =
      natDigits a := List.take_left _ _
  have hdropB : (natDigits a ++ '-' :: natDigits b).drop ((natDigits a).length + 1) =
      natDigits b := by
    have : natDigits a ++ '-' :: natDigits b = (natDigits a ++ ['-']) ++ natDigits b := by
      simp
    rw [this]
    have hlen : (natDigits a ++ ['-']).length = (natDigits a).length + 1 := by simp
    rw [← hlen]
    exact List.drop_left _ _
  have hsa : stoull (natDigits a) = some a := by
    have := stoull_all_digits (natDigits a) (natDigits_ne_nil a) (natDigits_isDigit a)
      (by rw [natDigits_val]; exact ha)
    rwa [natDigits_val] at this
  have hsb : stoull (natDigits b) = some b := by
    have := stoull_all_digits (natDigits b) (natDigits_ne_nil b) (natDigits_isDigit b)
      (by rw [natDigits_val]; exact hb)
    rwa [natDigits_val] at this
  unfold parseIdRange
  rw [hfind]
  dsimp only
  rw [if_pos hcond]
  rw [htakeA, hdropB, hsa, hsb]

/-! ## C9: parsing of id ranges -/

/-- C9, counterexample: the input `"7a"` is neither a decimal numeral nor a
dash range, yet `parseIdRange` returns `{7}` rather than the empty set the
claim demands — `stoull` parses the longest numeric prefix and ignores the
trailing garbage. -/
theorem parseIdRange_trailing_garbage_cex :
    parseIdRange ['7', 'a'] = [7] ∧ parseIdRange ['7', 'a'] ≠ [] := by
  refine ⟨by decide, by decide⟩

/-- C9 (amended): `parseIdRange` returns `{N}` on the decimal numeral `"N"`,
`{A, A+1, …, B}` on `"A-B"` when `A ≤ B` (so `"N-N"` yields `{N}` and
`"B-A"` with `A < B` yields the empty set), and the empty set when a side
fails to parse; each side, however, is parsed with `stoull` semantics
(longest numeric prefix after optional whitespace and sign), so inputs with
trailing non-numeric characters are accepted rather than rejected. -/
theorem parseIdRange_spec :
    (∀ a : Nat, a ≤ uMax → parseIdRange (natDigits a) = [a]) ∧
    (∀ a b : Nat, a ≤ uMax → b ≤ uMax →
      parseIdRange (natDigits a ++ '-' :: natDigits b) =
        if a ≤ b then rangeIncl a b else []) ∧
    (∀ a : Nat, a ≤ uMax → parseIdRange (natDigits a ++ '-' :: natDigits a) = [a]) := by
  refine ⟨?_, parseIdRange_digits_pair, ?_⟩
  · intro a ha
    have hsa : stoull (natDigits a) = some a := by
      have := stoull_all_digits (natDigits a) (natDigits_ne_nil a)
        (natDigits_isDigit a) (by rw [natDigits_val]; exact ha)
      rwa [natDigits_val] at this
    unfold parseIdRange
    rw [findDash_all_digits (natDigits a) (natDigits_isDigit a)]
    dsimp only
    unfold parseSingleId
    rw [hsa]
  · intro a ha
    rw [parseIdRange_digits_pair a a ha ha]
    rw [if_pos (le_refl a)]
    unfold rangeIncl
    have h1 : a + 1 - a = 1 := by omega
    rw [h1]
    simp [List.range_succ]

/-- C9, witness: `"7"` parses to `{7}`, `"3-6"` to `{3,4,5,6}`, `"6-3"` to
the empty set, `"5-5"` to `{5}`. -/
theorem parseIdRange_spec_witness :
    parseIdRange (natDigits 7) = [7] ∧
    parseIdRange (natDigits 3 ++ '-' :: natDigits 6) =
      (if 3 ≤ 6 then rangeIncl 3 6 else []) ∧
    parseIdRange (natDigits 6 ++ '-' :: natDigits 3) =
      (if 6 ≤ 3 then rangeIncl 6 3 else []) ∧
    parseIdRange (natDigits 5 ++ '-' :: natDigits 5) = [5] :=
  ⟨parseIdRange_spec.1 7 (by norm_num [uMax]),
   parseIdRange_spec.2.1 3 6 (by norm_num [uMax]) (by norm_num [uMax]),
   parseIdRange_spec.2.1 6 3 (by norm_num [uMax]) (by norm_num [uMax]),
   parseIdRange_spec.2.2 5 (by norm_num [uMax])⟩

/-! ## C8: the child environment variables -/

/-- C8, counterexample: the scheduler's randomized count-based CPU allocation
can produce the list `[3, 2]` (4 idle cores, request for 2, shuffle =
reverse), and `setupEnvironment` then sets `MYQUEUE_CPUS` to `"3,2"` — the
ids in allocation order, not ascending order as the claim states. -/
theorem env_cpu_list_not_ascending_cex :
    allocate ⟨⟨50, 4, 1000, 500, ∅⟩, ⟨100, 2, ∅⟩, ∅, ∅, 0⟩ none (fun _ _ => 10)
        (fun l => l.reverse) 2 0 [] [] =
      (some { cpus := [3, 2], gpus := [] },
       ⟨⟨50, 4, 1000, 500, {3, 2}⟩, ⟨100, 2, ∅⟩, ∅, ∅, 4⟩) ∧
    setupEnvironment [3, 2] [] =
      [("CUDA_VISIBLE_DEVICES", []), ("MYQUEUE_GPUS", []),
       ("MYQUEUE_CPUS", ['3', ',', '2'])] ∧
    ¬ List.Pairwise (· < ·) ([3, 2] : List Int) :=
  ⟨by decide, by decide, by decide⟩

/-- C8 (amended): the three child environment variables are exactly
`CUDA_VISIBLE_DEVICES` and `MYQUEUE_GPUS` (the comma-joined GPU list) and
`MYQUEUE_CPUS` (the comma-joined CPU list), each listing the allocated ids
in allocation order and equal to the empty string iff no resources of that
kind were allocated; count-based (auto) GPU allocations are in strictly
ascending order, but randomized count-based CPU allocations (and explicit
specific lists) keep their allocation order, which need not be ascending. -/
theorem env_lists_spec :
    (∀ (s : RMState) (snap : Option (List GPUInfo)) (util : Int → Nat → ℚ)
        (shuffle : List Int → List Int) (ncpu ngpu : Int) (sc : List Int)
        (res : AllocationResult) (s' : RMState),
        allocate s snap util shuffle ncpu ngpu sc [] = (some res, s') →
        List.Pairwise (· < ·) res.gpus) ∧
    (∀ l : List Int, buildIdString l = [] ↔ l = []) ∧
    (∀ cpus gpus : List Int,
      setupEnvironment cpus gpus =
        [("CUDA_VISIBLE_DEVICES", buildIdString gpus),
         ("MYQUEUE_GPUS", buildIdString gpus),
         ("MYQUEUE_CPUS", buildIdString cpus)]) := by
  refine ⟨?_, buildIdString_eq_nil_iff, fun _ _ => rfl⟩
  intro s snap util shuffle ncpu ngpu sc res s' h
  rcases rmAllocateGPUs_spec s.excluded_gpus s.gpu snap ngpu [] with
    ⟨-, -, -, -, hsorted⟩
  by_cases hg : ngpu > 0 ∨ ([] : List Int) ≠ []
  · simp only [allocate, if_pos hg] at h
    rw [if_neg (by simp)] at h
    by_cases hf2 :
        ((rmAllocateGPUs s.excluded_gpus s.gpu snap ngpu []).1.length : Int) < ngpu
    · rw [if_pos (⟨trivial, hf2⟩ : True ∧ _)] at h
      cases h
    · rw [if_neg (fun hand => hf2 hand.2)] at h
      rcases allocateCPUPhase_some _ util shuffle ncpu sc _ res s' h with
        ⟨hresg, -, -, -⟩
      rw [hresg]
      exact hsorted rfl
  · simp only [allocate, if_neg hg] at h
    rcases allocateCPUPhase_some _ util shuffle ncpu sc _ res s' h with
      ⟨hresg, -, -, -⟩
    rw [hresg]
    exact List.Pairwise.nil

/-- C8, witness: an auto-allocated single GPU yields the ascending list `[0]`,
and the CPU string of `[5]` is non-empty. -/
theorem env_lists_spec_witness :
    List.Pairwise (· < ·) ({ cpus := [], gpus := [0] } : AllocationResult).gpus ∧
    (buildIdString [5] = [] ↔ ([5] : List Int) = []) :=
  ⟨env_lists_spec.1 ⟨⟨50, 4, 1000, 500, ∅⟩, ⟨100, 2, ∅⟩, ∅, ∅, 0⟩
      (some [⟨0, 0, 16384, false, false⟩, ⟨1, 0, 16384, false, false⟩])
      (fun _ _ => 10) (fun l => l) 0 1 [] { cpus := [], gpus := [0] }
      ⟨⟨50, 4, 1000, 500, ∅⟩, ⟨100, 2, {0}⟩, ∅, ∅, 0⟩ (by decide),
   env_lists_spec.2.1 [5]⟩


end MyQueue
